import Mathlib

/-!
Shallow embedding of `multistate_kernel/util.py`.

Numeric scalars are modelled as real numbers; numpy 1-D arrays become
`List ℝ` and the N×2 feature matrix becomes `List (ℝ × ℝ)` (index column,
coordinate column).  `FrozenOrderedDict` is modelled by its ordered entry
list together with the `OrderedDict` construction (later duplicate keys
overwrite the stored value in place; fresh keys append).  Python errors
become `Except`/`Option`: the `ValueError` raised when a construction sees
no data at all (both the explicit `raise ValueError('Arrays should have
non-zero length')` on line 166 and numpy's own `ValueError` from
`np.block([])` / `np.hstack(())` on zero states) is `DataError.emptyData`;
`KeyError`/`IndexError` lookups yield `none`.
-/

namespace MSKernel

/-- One step of `collections.OrderedDict` construction from a pair list:
inserting `(k, v)` overwrites the value in place when `k` is already
present, otherwise appends the pair at the end. -/
def odInsert {K V : Type} [DecidableEq K] (l : List (K × V)) (p : K × V) : List (K × V) :=
  if l.any (fun q => decide (q.1 = p.1)) then
    l.map (fun q => if q.1 = p.1 then p else q)
  else l ++ [p]

/-- The entry list of `FrozenOrderedDict(pairs)` (util.py lines 9-30):
`OrderedDict` built from the pair list, keeping insertion order. -/
def FrozenOrderedDict.ofList {K V : Type} [DecidableEq K] (ps : List (K × V)) : List (K × V) :=
  ps.foldl odInsert []

/-- `FrozenOrderedDict.__getitem__` (util.py lines 24-25): the value stored
for `item`, or `none` for the `KeyError` on an absent key. -/
def FrozenOrderedDict.getItem {K V : Type} [DecidableEq K] (d : List (K × V)) (k : K) :
    Option V :=
  (d.find? (fun p => decide (p.1 = k))).map Prod.snd

/-- The `StateData` namedtuple (util.py line 34): one named state's
coordinates, values and errors. -/
structure StateData where
  x : List ℝ
  y : List ℝ
  err : List ℝ

/-- The `ScikitLearnData` namedtuple (util.py line 35): flat feature matrix
(rows are (state index, coordinate)), value vector, error vector, and the
normalization constant. -/
structure ScikitLearnData where
  x : List (ℝ × ℝ)
  y : List ℝ
  err : List ℝ
  norm : ℝ

/-- The rows of `MultiStateData._x_2d_from_1d` (util.py lines 110-114) for
the states enumerated from `o`: for the state at position `o + j` with
coordinates `c₁, c₂, …`, the rows `(o + j, c₁), (o + j, c₂), …`,
concatenated in order (`np.full_like(x, i)` beside `x`, glued by
`np.block`). -/
noncomputable def blockRows (o : ℕ) (xs : List (List ℝ)) : List (ℝ × ℝ) :=
  ((xs.enumFrom o).map (fun p => p.2.map (fun c => ((p.1 : ℝ), c)))).flatten

/-- `MultiStateData._x_2d_from_1d` (util.py lines 110-114).  `np.block`
raises `ValueError` on an empty list, so the zero-state call yields
`none`; otherwise the rows `(i, c)` for state `i` in order. -/
noncomputable def x_2d_from_1d (xs : List (List ℝ)) : Option (List (ℝ × ℝ)) :=
  if xs.isEmpty then none else some (blockRows 0 xs)

/-- `MultiStateData` (util.py lines 38-100): the ordered named view
(`self._dict`, kept as its entry list) beside the flat view
(`self._scikit`). -/
structure MultiStateData (K : Type) where
  odict : List (K × StateData)
  scikit : ScikitLearnData

/-- `.keys` (util.py lines 83, 98-100): the tuple of the odict's keys in
order. -/
def MultiStateData.keys {K : Type} (m : MultiStateData K) : List K :=
  m.odict.map Prod.fst

/-- `.arrays` (util.py lines 90-92). -/
def MultiStateData.arrays {K : Type} (m : MultiStateData K) : ScikitLearnData :=
  m.scikit

/-- `.norm` (util.py lines 94-96). -/
noncomputable def MultiStateData.norm {K : Type} (m : MultiStateData K) : ℝ :=
  m.scikit.norm

/-- Python sequence indexing `l[i]` for `int` `i`: a negative index is
shifted by the length once, then a bounds check is made (`IndexError`
becomes `none`). -/
def pyTupleGet {A : Type} (l : List A) (i : ℤ) : Option A :=
  let j : ℤ := if i < 0 then i + (l.length : ℤ) else i
  if 0 ≤ j then l.get? j.toNat else none

/-- `MultiStateData.key` (util.py lines 102-104): `self._keys_tuple[idx]`,
Python tuple indexing. -/
def MultiStateData.key {K : Type} (m : MultiStateData K) (i : ℤ) : Option K :=
  pyTupleGet m.keys i

/-- `MultiStateData.idx` (util.py lines 106-108): lookup in
`self._state_idx_dict = \x7bx: i for i, x in enumerate(self._dict)\x7d`
(util.py line 84); the dict comprehension keeps the last index written for
a key, an absent key's `KeyError` becomes `none`. -/
def MultiStateData.idx {K : Type} [DecidableEq K] (m : MultiStateData K) (k : K) : Option ℕ :=
  m.keys.enum.foldl (fun acc p => if p.2 = k then some p.1 else acc) none

/-- `MultiStateData.sample` (util.py lines 116-129):
`self._x_2d_from_1d([x]*len(self.keys))`. -/
noncomputable def MultiStateData.sample {K : Type} (m : MultiStateData K) (coords : List ℝ) :
    Option (List (ℝ × ℝ)) :=
  x_2d_from_1d (List.replicate m.keys.length coords)

/-- `numpy.ndarray.std` with the default `ddof=0`: the square root of the
mean squared deviation from the mean. -/
noncomputable def npStd (l : List ℝ) : ℝ :=
  Real.sqrt ((l.map (fun v => (v - l.sum / l.length) ^ 2)).sum / l.length)

/-- Python's `a or b` on numeric scalars: `b` when `a` is falsy (zero),
otherwise `a` itself. -/
noncomputable def pyOr (a b : ℝ) : ℝ :=
  if a = 0 then b else a

/-- The concatenated value vector of an entry list, in key order
(`np.hstack((v.y for v in itervalues(d)))`, util.py line 164). -/
def flatY {K : Type} (d : List (K × StateData)) : List ℝ :=
  (d.map (fun p => p.2.y)).flatten

/-- The concatenated error vector of an entry list, in key order
(util.py line 169, before the division by `norm`). -/
def flatErr {K : Type} (d : List (K × StateData)) : List ℝ :=
  (d.map (fun p => p.2.err)).flatten

/-- The normalization constant of util.py line 167:
`norm = y.std() or y[0] or 1`. -/
noncomputable def normOfY (y : List ℝ) : ℝ :=
  pyOr (npStd y) (pyOr (y.headD 0) 1)

/-- The single error class of the embedding: any of the `ValueError`s a
construction from empty data raises (util.py line 166, and numpy's own on
`np.block([])`/`np.hstack(())` for zero states). -/
inductive DataError : Type
  | emptyData
deriving DecidableEq

/-- `MultiStateData.from_state_data` (util.py lines 157-170): build the
`FrozenOrderedDict`, derive the flat feature matrix and the
concatenations, fail on empty data, otherwise normalize by
`y.std() or y[0] or 1`. -/
noncomputable def MultiStateData.from_state_data {K : Type} [DecidableEq K]
    (items : List (K × StateData)) : Except DataError (MultiStateData K) :=
  let d := FrozenOrderedDict.ofList items
  match x_2d_from_1d (d.map (fun p => p.2.x)) with
  | none => Except.error DataError.emptyData
  | some x =>
    if (flatY d).length = 0 then Except.error DataError.emptyData
    else
      let norm := normOfY (flatY d)
      Except.ok
        { odict := d
          scikit :=
            { x := x
              y := (flatY d).map (fun v => v / norm)
              err := (flatErr d).map (fun v => v / norm)
              norm := norm } }

/-- `MultiStateData.from_items` (util.py lines 152-155): wrap each value
triple as a `StateData` and delegate. -/
noncomputable def MultiStateData.from_items {K : Type} [DecidableEq K]
    (items : List (K × (List ℝ × List ℝ × List ℝ))) : Except DataError (MultiStateData K) :=
  MultiStateData.from_state_data
    (items.map (fun p => (p.1, StateData.mk p.2.1 p.2.2.1 p.2.2.2)))

/-- The `StateData` the generator of `from_scikit_learn_data` yields for
enumeration position `t` (util.py lines 209-212): the rows of the feature
matrix whose index column equals `t` select the coordinates, and the same
boolean mask selects (and de-normalizes) the value and error slices. -/
noncomputable def stateOfSlice (data : ScikitLearnData) (t : ℝ) : StateData where
  x := (data.x.filter (fun r => decide (r.1 = t))).map Prod.snd
  y := (((data.x.zip data.y).filter (fun p => decide (p.1.1 = t))).map Prod.snd).map
    (fun v => v * data.norm)
  err := (((data.x.zip data.err).filter (fun p => decide (p.1.1 = t))).map Prod.snd).map
    (fun v => v * data.norm)

/-- `MultiStateData.from_scikit_learn_data` (util.py lines 194-213) with an
explicit `keys` argument: each supplied key is paired with the slice of
the flat data at its enumeration position. -/
noncomputable def MultiStateData.from_scikit_learn_data {K : Type} [DecidableEq K]
    (data : ScikitLearnData) (keys : List K) : MultiStateData K :=
  { odict :=
      FrozenOrderedDict.ofList (keys.enum.map (fun p => (p.2, stateOfSlice data (p.1 : ℝ))))
    scikit := data }

/-- `np.unique` of a 1-D array: the distinct values in ascending order. -/
noncomputable def npUnique (l : List ℝ) : List ℝ :=
  l.dedup.insertionSort (fun a b => a ≤ b)

/-- `MultiStateData.from_scikit_learn_data` with `keys=None` (util.py lines
206-207): the keys default to `np.unique(data.x[:,0])`, so they are real
numbers. -/
noncomputable def MultiStateData.from_scikit_learn_data_default (data : ScikitLearnData) :
    MultiStateData ℝ :=
  MultiStateData.from_scikit_learn_data data (npUnique (data.x.map Prod.fst))

/-- `MultiStateData.from_arrays` (util.py lines 172-192). -/
noncomputable def MultiStateData.from_arrays {K : Type} [DecidableEq K]
    (x : List (ℝ × ℝ)) (y err : List ℝ) (norm : ℝ) (keys : List K) : MultiStateData K :=
  MultiStateData.from_scikit_learn_data (ScikitLearnData.mk x y err norm) keys

/-- The error `MultiStateData.convert_arrays` raises on every call: the
would-be docstring of util.py lines 132-149 is the expression
`"""...""".format(class_name=self.__name__)`, evaluated when the method
runs, and a `MultiStateData` instance has no `__name__` attribute. -/
inductive CallError : Type
  | attributeError
deriving DecidableEq

/-- `MultiStateData.convert_arrays` (util.py lines 131-150) as it executes:
the format expression on line 149 raises `AttributeError` before the
return statement is reached, on every input. -/
noncomputable def MultiStateData.convert_arrays {K : Type} [DecidableEq K]
    (_ : MultiStateData K) (_ : List (ℝ × ℝ)) (_ _ : List ℝ) :
    Except CallError (MultiStateData K) :=
  Except.error CallError.attributeError

/-- The (unreachable) return expression of `MultiStateData.convert_arrays`
(util.py line 150): `self.from_arrays(x, y, err, self.norm, keys=self.keys)`. -/
noncomputable def MultiStateData.convert_arrays_return {K : Type} [DecidableEq K]
    (m : MultiStateData K) (x : List (ℝ × ℝ)) (y err : List ℝ) : MultiStateData K :=
  MultiStateData.from_arrays x y err m.norm m.keys

/-! ## Helper lemmas -/

lemma odInsert_of_not_mem {K V : Type} [DecidableEq K] {l : List (K × V)} {p : K × V}
    (h : p.1 ∉ l.map Prod.fst) : odInsert l p = l ++ [p] := by
  have hany : l.any (fun q => decide (q.1 = p.1)) = false := by
    rw [List.any_eq_false]
    intro q hq
    simp only [decide_eq_true_eq]
    intro hqe
    exact h (hqe ▸ List.mem_map_of_mem Prod.fst hq)
  rw [odInsert, hany]
  simp

lemma foldl_odInsert_eq {K V : Type} [DecidableEq K] :
    ∀ (ps acc : List (K × V)), (((acc ++ ps).map Prod.fst)).Nodup →
      ps.foldl odInsert acc = acc ++ ps
  | [], acc, _ => by simp
  | p :: ps, acc, h => by
    have hp : p.1 ∉ acc.map Prod.fst := by
      rw [List.map_append, List.nodup_append] at h
      intro hmem
      exact h.2.2 hmem (by simp)
    have hrest : (((acc ++ [p]) ++ ps).map Prod.fst).Nodup := by
      simpa [List.append_assoc] using h
    rw [List.foldl_cons, odInsert_of_not_mem hp, foldl_odInsert_eq ps (acc ++ [p]) hrest]
    simp

lemma ofList_eq_self {K V : Type} [DecidableEq K] {ps : List (K × V)}
    (h : (ps.map Prod.fst).Nodup) : FrozenOrderedDict.ofList ps = ps := by
  simpa using foldl_odInsert_eq ps [] (by simpa using h)

lemma blockRows_nil (o : ℕ) : blockRows o [] = [] := rfl

lemma blockRows_cons (o : ℕ) (x : List ℝ) (xs : List (List ℝ)) :
    blockRows o (x :: xs) = x.map (fun c => ((o : ℝ), c)) ++ blockRows (o + 1) xs := by
  simp [blockRows, List.enumFrom_cons]

lemma mem_blockRows_fst {o : ℕ} {xs : List (List ℝ)} {r : ℝ × ℝ}
    (h : r ∈ blockRows o xs) : ∃ j : ℕ, o ≤ j ∧ r.1 = (j : ℝ) := by
  induction xs generalizing o with
  | nil => cases h
  | cons x xs ih =>
    rw [blockRows_cons, List.mem_append] at h
    rcases h with h | h
    · rcases List.mem_map.1 h with ⟨c, _, rfl⟩
      exact ⟨o, le_refl o, rfl⟩
    · rcases ih h with ⟨j, hj, hr⟩
      exact ⟨j, le_trans (Nat.le_succ o) hj, hr⟩

lemma length_blockRows (o : ℕ) (xs : List (List ℝ)) :
    (blockRows o xs).length = (xs.map List.length).sum := by
  induction xs generalizing o with
  | nil => rfl
  | cons x xs ih => simp [blockRows_cons, ih]

lemma map_snd_blockRows (o : ℕ) (xs : List (List ℝ)) :
    (blockRows o xs).map Prod.snd = xs.flatten := by
  induction xs generalizing o with
  | nil => rfl
  | cons x xs ih => simp [blockRows_cons, ih, List.map_map, Function.comp]

lemma filter_blockRows :
    ∀ (xs : List (List ℝ)) (o k : ℕ) (hk : k < xs.length),
      (blockRows o xs).filter (fun r => decide (r.1 = ((o + k : ℕ) : ℝ)))
        = (xs.get ⟨k, hk⟩).map (fun c => (((o + k : ℕ) : ℝ), c))
  | [], _, k, hk => absurd hk (by simp)
  | x :: xs, o, 0, _ => by
    rw [blockRows_cons, List.filter_append]
    have h₁ : (x.map (fun c => ((o : ℝ), c))).filter
        (fun r => decide (r.1 = ((o + 0 : ℕ) : ℝ))) = x.map (fun c => ((o : ℝ), c)) := by
      apply List.filter_eq_self.mpr
      intro a ha
      rcases List.mem_map.1 ha with ⟨c, _, rfl⟩
      simp
    have h₂ : (blockRows (o + 1) xs).filter
        (fun r => decide (r.1 = ((o + 0 : ℕ) : ℝ))) = [] := by
      apply List.filter_eq_nil_iff.mpr
      intro a ha
      rcases mem_blockRows_fst ha with ⟨j, hj, hr⟩
      simp only [hr, decide_eq_true_eq, Nat.cast_inj, Nat.add_zero]
      omega
    rw [h₁, h₂, List.append_nil]
    simp
  | x :: xs, o, k + 1, hk => by
    rw [blockRows_cons, List.filter_append]
    have h₁ : (x.map (fun c => ((o : ℝ), c))).filter
        (fun r => decide (r.1 = ((o + (k + 1) : ℕ) : ℝ))) = [] := by
      apply List.filter_eq_nil_iff.mpr
      intro a ha
      rcases List.mem_map.1 ha with ⟨c, _, rfl⟩
      simp only [decide_eq_true_eq, Nat.cast_inj]
      omega
    have hidx : o + (k + 1) = (o + 1) + k := by omega
    rw [h₁, List.nil_append, hidx, filter_blockRows xs (o + 1) k (by simpa using hk)]
    simp

lemma mask_blockRows {xs vs : List (List ℝ)}
    (hlen : List.Forall₂ (fun a b => a.length = b.length) xs vs) :
    ∀ (o k : ℕ) (hk : k < vs.length),
      (((blockRows o xs).zip vs.flatten).filter
          (fun p => decide (p.1.1 = ((o + k : ℕ) : ℝ)))).map Prod.snd
        = vs.get ⟨k, hk⟩ := by
  induction hlen with
  | nil => intro o k hk; exact absurd hk (by simp)
  | cons hab htail ih =>
    rename_i a b as bs
    intro o k hk
    have hlen₀ : (a.map (fun c => ((o : ℝ), c))).length = b.length := by
      simpa using hab
    rw [blockRows_cons, List.flatten_cons, List.zip_append hlen₀, List.filter_append]
    cases k with
    | zero =>
      have h₁ : ((a.map (fun c => ((o : ℝ), c))).zip b).filter
          (fun p => decide (p.1.1 = ((o + 0 : ℕ) : ℝ)))
            = (a.map (fun c => ((o : ℝ), c))).zip b := by
        apply List.filter_eq_self.mpr
        intro q hq
        rcases List.mem_map.1 (List.of_mem_zip hq).1 with ⟨c, _, hc⟩
        simp [← hc]
      have h₂ : ((blockRows (o + 1) as).zip bs.flatten).filter
          (fun p => decide (p.1.1 = ((o + 0 : ℕ) : ℝ))) = [] := by
        apply List.filter_eq_nil_iff.mpr
        intro q hq
        rcases mem_blockRows_fst (List.of_mem_zip hq).1 with ⟨j, hj, hr⟩
        simp only [hr, decide_eq_true_eq, Nat.cast_inj, Nat.add_zero]
        omega
      rw [h₁, h₂, List.append_nil, List.map_snd_zip _ _ (le_of_eq hlen₀.symm)]
      simp
    | succ k =>
      have h₁ : ((a.map (fun c => ((o : ℝ), c))).zip b).filter
          (fun p => decide (p.1.1 = ((o + (k + 1) : ℕ) : ℝ))) = [] := by
        apply List.filter_eq_nil_iff.mpr
        intro q hq
        rcases List.mem_map.1 (List.of_mem_zip hq).1 with ⟨c, _, hc⟩
        rw [← hc]
        simp only [decide_eq_true_eq, Nat.cast_inj]
        omega
      have hidx : o + (k + 1) = (o + 1) + k := by omega
      rw [h₁, List.nil_append, hidx, ih (o + 1) k (by simpa using hk)]
      simp

lemma mask_map_right (xs : List (ℝ × ℝ)) (vs : List ℝ) (f : ℝ → ℝ) (t : ℝ) :
    ((xs.zip (vs.map f)).filter (fun p => decide (p.1.1 = t))).map Prod.snd
      = (((xs.zip vs).filter (fun p => decide (p.1.1 = t))).map Prod.snd).map f := by
  rw [List.zip_map_right, List.filter_map, List.map_map, List.map_map]
  rfl

lemma pyOr_chain_ne_zero (a b : ℝ) : pyOr a (pyOr b 1) ≠ 0 := by
  unfold pyOr
  split_ifs with h1 h2
  · norm_num
  · exact h2
  · exact h1

lemma normOfY_ne_zero (y : List ℝ) : normOfY y ≠ 0 :=
  pyOr_chain_ne_zero _ _

lemma flatY_map_length {K : Type} (items : List (K × StateData)) :
    (flatY items).length = (items.map (fun p => p.2.y.length)).sum := by
  rw [flatY, List.length_flatten, List.map_map]
  rfl

lemma from_state_data_eq_ok {K : Type} [DecidableEq K] {items : List (K × StateData)}
    (hnd : (items.map Prod.fst).Nodup) (hne : flatY items ≠ []) :
    MultiStateData.from_state_data items
      = Except.ok
          { odict := items
            scikit :=
              { x := blockRows 0 (items.map (fun p => p.2.x))
                y := (flatY items).map (fun v => v / normOfY (flatY items))
                err := (flatErr items).map (fun v => v / normOfY (flatY items))
                norm := normOfY (flatY items) } } := by
  have hitems : items ≠ [] := by
    rintro rfl
    exact hne rfl
  have hxe : (items.map (fun p => p.2.x)).isEmpty = false := by
    cases items with
    | nil => exact absurd rfl hitems
    | cons p ps => rfl
  have hy : ¬ (flatY items).length = 0 := fun hc => hne (List.length_eq_zero.mp hc)
  rw [MultiStateData.from_state_data, ofList_eq_self hnd]
  rw [x_2d_from_1d, hxe]
  simp only [Bool.false_eq_true, if_false, if_neg hy]

lemma map_fst_pair_snd {K : Type} (keys : List K) (f : ℕ × K → StateData) :
    (keys.enum.map (fun p => (p.2, f p))).map Prod.fst = keys := by
  rw [List.map_map]
  have : (Prod.fst ∘ fun p : ℕ × K => (p.2, f p)) = Prod.snd := rfl
  rw [this, List.enum_map_snd]

lemma from_scikit_odict {K : Type} [DecidableEq K] (data : ScikitLearnData) {keys : List K}
    (hnd : keys.Nodup) :
    (MultiStateData.from_scikit_learn_data data keys).odict
      = keys.enum.map (fun p => (p.2, stateOfSlice data (p.1 : ℝ))) := by
  rw [MultiStateData.from_scikit_learn_data]
  apply ofList_eq_self
  rw [map_fst_pair_snd]
  exact hnd

lemma from_scikit_keys {K : Type} [DecidableEq K] (data : ScikitLearnData) {keys : List K}
    (hnd : keys.Nodup) :
    (MultiStateData.from_scikit_learn_data data keys).keys = keys := by
  rw [MultiStateData.keys, from_scikit_odict data hnd, map_fst_pair_snd]

lemma pyTupleGet_eq_none_iff {A : Type} (l : List A) (i : ℤ) :
    pyTupleGet l i = none ↔ i < -(l.length : ℤ) ∨ (l.length : ℤ) ≤ i := by
  simp only [pyTupleGet]
  split_ifs with h1 h2 h3
  · rw [List.get?_eq_none]
    omega
  · exact ⟨fun _ => by omega, fun _ => rfl⟩
  · rw [List.get?_eq_none]
    omega
  · exact ⟨fun _ => by omega, fun _ => rfl⟩

lemma foldl_idx_eq_none {K : Type} [DecidableEq K] (k : K) :
    ∀ (l : List (ℕ × K)) (acc : Option ℕ),
      l.foldl (fun acc p => if p.2 = k then some p.1 else acc) acc = none
        ↔ acc = none ∧ ∀ p ∈ l, p.2 ≠ k
  | [], acc => by simp
  | p :: l, acc => by
    rw [List.foldl_cons, foldl_idx_eq_none k l _]
    by_cases hp : p.2 = k <;> simp [hp]

lemma getItem_eq_none_iff {K V : Type} [DecidableEq K] (d : List (K × V)) (k : K) :
    FrozenOrderedDict.getItem d k = none ↔ k ∉ d.map Prod.fst := by
  rw [FrozenOrderedDict.getItem]
  simp only [Option.map_eq_none', List.find?_eq_none, decide_eq_true_eq, List.mem_map]
  constructor
  · rintro h ⟨p, hp, rfl⟩
    exact h p hp rfl
  · rintro h p hp rfl
    exact h ⟨p, hp, rfl⟩

lemma npUnique_nodup (l : List ℝ) : (npUnique l).Nodup := by
  rw [npUnique]
  exact ((List.perm_insertionSort _ _).nodup_iff).mpr l.nodup_dedup

lemma npUnique_sorted (l : List ℝ) : (npUnique l).Sorted (fun a b => a < b) :=
  List.Sorted.lt_of_le (List.sorted_insertionSort _ _) (npUnique_nodup l)

lemma npUnique_mem (l : List ℝ) (v : ℝ) : v ∈ npUnique l ↔ v ∈ l := by
  rw [npUnique, List.mem_insertionSort, List.mem_dedup]

lemma blockRows_replicate_fst :
    ∀ (n o : ℕ) (c : List ℝ),
      (blockRows o (List.replicate n c)).map Prod.fst
        = ((List.range' o n).map (fun i => List.replicate c.length ((i : ℕ) : ℝ))).flatten
  | 0, _, _ => rfl
  | n + 1, o, c => by
    rw [List.replicate_succ, blockRows_cons, List.range'_succ o n 1, List.map_cons,
      List.flatten_cons, List.map_append, blockRows_replicate_fst n (o + 1) c]
    congr 1
    rw [List.map_map]
    exact List.map_const' c ((o : ℕ) : ℝ)

lemma filter_blockRows_zero (xs : List (List ℝ)) (k : ℕ) (hk : k < xs.length) :
    (blockRows 0 xs).filter (fun r => decide (r.1 = ((k : ℕ) : ℝ)))
      = (xs.get ⟨k, hk⟩).map (fun c => (((k : ℕ) : ℝ), c)) := by
  simpa using filter_blockRows xs 0 k hk

lemma mask_blockRows_zero {xs vs : List (List ℝ)}
    (hlen : List.Forall₂ (fun a b => a.length = b.length) xs vs)
    (k : ℕ) (hk : k < vs.length) :
    (((blockRows 0 xs).zip vs.flatten).filter
        (fun p => decide (p.1.1 = ((k : ℕ) : ℝ)))).map Prod.snd
      = vs.get ⟨k, hk⟩ := by
  simpa using mask_blockRows hlen 0 k hk

lemma forall₂_length_map {K : Type} (items : List (K × StateData))
    (f g : (K × StateData) → List ℝ)
    (h : ∀ p ∈ items, (f p).length = (g p).length) :
    List.Forall₂ (fun a b => a.length = b.length) (items.map f) (items.map g) := by
  induction items with
  | nil => exact List.Forall₂.nil
  | cons p ps ih =>
    exact List.Forall₂.cons (h p (by simp)) (ih (fun q hq => h q (by simp [hq])))

lemma stateOfSlice_roundtrip {K : Type} (items : List (K × StateData))
    (hlen : ∀ p ∈ items, p.2.x.length = p.2.y.length ∧ p.2.x.length = p.2.err.length)
    (k : ℕ) (hk : k < items.length) (n : ℝ) (hn : n ≠ 0) :
    stateOfSlice
        { x := blockRows 0 (items.map (fun p => p.2.x))
          y := (flatY items).map (fun v => v / n)
          err := (flatErr items).map (fun v => v / n)
          norm := n } ((k : ℕ) : ℝ)
      = (items.get ⟨k, hk⟩).2 := by
  have hkx : k < (items.map (fun p => p.2.x)).length := by simpa using hk
  have hky : k < (items.map (fun p => p.2.y)).length := by simpa using hk
  have hke : k < (items.map (fun p => p.2.err)).length := by simpa using hk
  have hfy : List.Forall₂ (fun a b => a.length = b.length)
      (items.map (fun p => p.2.x)) (items.map (fun p => p.2.y)) :=
    forall₂_length_map items _ _ (fun p hp => (hlen p hp).1)
  have hfe : List.Forall₂ (fun a b => a.length = b.length)
      (items.map (fun p => p.2.x)) (items.map (fun p => p.2.err)) :=
    forall₂_length_map items _ _ (fun p hp => (hlen p hp).2)
  have hdiv : ∀ v : ℝ, v / n * n = v := fun v => div_mul_cancel₀ v hn
  rw [stateOfSlice]
  have hx : ((blockRows 0 (items.map (fun p => p.2.x))).filter
      (fun r => decide (r.1 = ((k : ℕ) : ℝ)))).map Prod.snd
        = (items.get ⟨k, hk⟩).2.x := by
    rw [filter_blockRows_zero _ k hkx, List.map_map]
    have : (Prod.snd ∘ fun c : ℝ => (((k : ℕ) : ℝ), c)) = id := rfl
    rw [this, List.map_id]
    simp [List.get_eq_getElem]
  have hy : ((((blockRows 0 (items.map (fun p => p.2.x))).zip
      ((flatY items).map (fun v => v / n))).filter
        (fun p => decide (p.1.1 = ((k : ℕ) : ℝ)))).map Prod.snd).map (fun v => v * n)
          = (items.get ⟨k, hk⟩).2.y := by
    rw [flatY, mask_map_right, mask_blockRows_zero hfy k hky, List.map_map]
    have : ((fun v : ℝ => v * n) ∘ fun v : ℝ => v / n) = id := by
      funext v
      exact hdiv v
    rw [this, List.map_id]
    simp [List.get_eq_getElem]
  have he : ((((blockRows 0 (items.map (fun p => p.2.x))).zip
      ((flatErr items).map (fun v => v / n))).filter
        (fun p => decide (p.1.1 = ((k : ℕ) : ℝ)))).map Prod.snd).map (fun v => v * n)
          = (items.get ⟨k, hk⟩).2.err := by
    rw [flatErr, mask_map_right, mask_blockRows_zero hfe k hke, List.map_map]
    have : ((fun v : ℝ => v * n) ∘ fun v : ℝ => v / n) = id := by
      funext v
      exact hdiv v
    rw [this, List.map_id]
    simp [List.get_eq_getElem]
  rw [hx, hy, he]

lemma from_scikit_get? {K : Type} [DecidableEq K] (data : ScikitLearnData) {keys : List K}
    (hnd : keys.Nodup) (k : ℕ) (hk : k < keys.length) :
    (MultiStateData.from_scikit_learn_data data keys).odict.get? k
      = some (keys.get ⟨k, hk⟩, stateOfSlice data ((k : ℕ) : ℝ)) := by
  rw [from_scikit_odict data hnd]
  have hk2 : k < (keys.enum.map
      (fun p => (p.2, stateOfSlice data ((p.1 : ℕ) : ℝ)))).length := by
    simpa using hk
  rw [List.get?_eq_get hk2]
  simp [List.get_eq_getElem, List.getElem_enum]

/-! ## The claims -/

/-- C1 — Round trip: for a dataset of named states with distinct keys,
per-state equal-length x/y/err columns and at least one value in total,
`from_state_data` succeeds, and rebuilding with `from_scikit_learn_data`
from the instance's `.arrays` and `.keys` restores the whole named view —
every state's original x, y and err exactly (exactly, since the embedding
is over ℝ; "within floating-point tolerance" in the spec). -/
theorem roundTrip_from_state_data {K : Type} [DecidableEq K]
    (items : List (K × StateData))
    (hnd : (items.map Prod.fst).Nodup)
    (hlen : ∀ p ∈ items, p.2.x.length = p.2.y.length ∧ p.2.x.length = p.2.err.length)
    (hne : (items.map (fun p => p.2.y.length)).sum ≠ 0) :
    ∃ m : MultiStateData K, MultiStateData.from_state_data items = Except.ok m ∧
      (MultiStateData.from_scikit_learn_data m.arrays m.keys).odict = items := by
  have hfl : (flatY items).length ≠ 0 := by
    rw [flatY_map_length]
    exact hne
  have hfy : flatY items ≠ [] := fun hc => hfl (by rw [hc]; rfl)
  refine ⟨_, from_state_data_eq_ok hnd hfy, ?_⟩
  show (MultiStateData.from_scikit_learn_data _ (items.map Prod.fst)).odict = items
  rw [from_scikit_odict _ hnd]
  apply List.ext_get (by simp)
  intro k h1 h2
  have hk : k < items.length := h2
  have hodr := stateOfSlice_roundtrip items hlen k hk
    (normOfY (flatY items)) (normOfY_ne_zero _)
  simp only [List.get_eq_getElem] at hodr
  simp only [List.get_eq_getElem, List.getElem_map, List.getElem_enum,
    MultiStateData.arrays]
  rw [hodr]

/-- C1 witness: the spec's own concrete example — states
`0 : x=[1,2], y=[10,20], err=[1,1]` and `1 : x=[3], y=[30], err=[2]`. -/
theorem roundTrip_from_state_data_witness :
    ∃ m : MultiStateData ℕ,
      MultiStateData.from_state_data
          [(0, StateData.mk [1, 2] [10, 20] [1, 1]), (1, StateData.mk [3] [30] [2])]
        = Except.ok m ∧
      (MultiStateData.from_scikit_learn_data m.arrays m.keys).odict
        = [(0, StateData.mk [1, 2] [10, 20] [1, 1]), (1, StateData.mk [3] [30] [2])] :=
  roundTrip_from_state_data _ (by decide) (by decide) (by decide)

/-- C2 — the claim is right about the intended behaviour but the code
fails before reaching it: every call of `convert_arrays` evaluates
`"""...""".format(class_name=self.__name__)` (util.py line 149), and an
instance has no `__name__`, so an `AttributeError` is raised on every
input; the return expression of line 150, which never runs, would indeed
produce an instance with the same `norm` and the same key tuple. -/
theorem convert_arrays_attribute_error {K : Type} [DecidableEq K] (m : MultiStateData K)
    (hnd : m.keys.Nodup) (x : List (ℝ × ℝ)) (y err : List ℝ) :
    m.convert_arrays x y err = Except.error CallError.attributeError
    ∧ (m.convert_arrays_return x y err).norm = m.norm
    ∧ (m.convert_arrays_return x y err).keys = m.keys := by
  refine ⟨rfl, rfl, ?_⟩
  rw [MultiStateData.convert_arrays_return, MultiStateData.from_arrays]
  exact from_scikit_keys _ hnd

/-- C2 witness: a one-state instance with `norm = 2`. -/
theorem convert_arrays_attribute_error_witness :
    (MultiStateData.mk [((0 : ℕ), StateData.mk [] [] [])]
        (ScikitLearnData.mk [] [] [] 2)).convert_arrays [] [] []
        = Except.error CallError.attributeError
    ∧ ((MultiStateData.mk [((0 : ℕ), StateData.mk [] [] [])]
        (ScikitLearnData.mk [] [] [] 2)).convert_arrays_return [] [] []).norm
        = (MultiStateData.mk [((0 : ℕ), StateData.mk [] [] [])]
            (ScikitLearnData.mk [] [] [] 2)).norm
    ∧ ((MultiStateData.mk [((0 : ℕ), StateData.mk [] [] [])]
        (ScikitLearnData.mk [] [] [] 2)).convert_arrays_return [] [] []).keys
        = (MultiStateData.mk [((0 : ℕ), StateData.mk [] [] [])]
            (ScikitLearnData.mk [] [] [] 2)).keys :=
  convert_arrays_attribute_error _ (by decide) [] [] []

/-- C3 — the positivity claim fails on the code: for the single state
`y = [-5]` the standard deviation is zero and the fallback picks
`y[0] = -5`, so the successfully constructed instance has `norm = -5 < 0`
(contradicting the class documentation "norm (positive float)"). -/
theorem from_state_data_negative_norm :
    (MultiStateData.from_state_data
        [((0 : ℕ), StateData.mk [0] [-5] [1])]).map MultiStateData.norm
      = Except.ok (-5) ∧ ((-5 : ℝ) < 0) := by
  refine ⟨?_, by norm_num⟩
  have hok := @from_state_data_eq_ok ℕ _
    [((0 : ℕ), StateData.mk [0] [-5] [1])] (by decide) (by simp [flatY])
  rw [hok]
  have hf : flatY [((0 : ℕ), StateData.mk [0] [-5] [1])] = [-5] := rfl
  have hstd : npStd [-5] = 0 := by
    simp only [npStd]
    norm_num
  have hnorm : normOfY (flatY [((0 : ℕ), StateData.mk [0] [-5] [1])]) = -5 := by
    rw [hf, normOfY, hstd, pyOr, if_pos rfl]
    show pyOr (List.headD [-5] 0) 1 = -5
    rw [pyOr]
    norm_num
  show Except.ok (MultiStateData.norm _) = _
  rw [MultiStateData.norm]
  show Except.ok (normOfY (flatY [((0 : ℕ), StateData.mk [0] [-5] [1])])) = _
  rw [hnorm]

/-- C4 — Norm fallback chain: whenever the concatenated value vector is
non-empty (distinct state keys), construction succeeds and the norm is
exactly `stddev(flat_y)` if that is nonzero, else `flat_y[0]` if that is
nonzero, else `1`. -/
theorem from_state_data_norm_fallback {K : Type} [DecidableEq K]
    (items : List (K × StateData))
    (hnd : (items.map Prod.fst).Nodup) (hne : flatY items ≠ []) :
    ∃ m : MultiStateData K, MultiStateData.from_state_data items = Except.ok m ∧
      m.norm =
        (if npStd (flatY items) ≠ 0 then npStd (flatY items)
         else if (flatY items).headD 0 ≠ 0 then (flatY items).headD 0
         else 1) := by
  refine ⟨_, from_state_data_eq_ok hnd hne, ?_⟩
  show normOfY (flatY items) = _
  rw [normOfY, pyOr, pyOr]
  by_cases h1 : npStd (flatY items) = 0 <;>
    by_cases h2 : (flatY items).headD 0 = 0 <;>
      simp [h1, h2]

/-- C4 witness: two equal values `y = [3, 3]` — zero stddev, nonzero
first element. -/
theorem from_state_data_norm_fallback_witness :
    ∃ m : MultiStateData ℕ,
      MultiStateData.from_state_data [(0, StateData.mk [0, 1] [3, 3] [1, 1])]
        = Except.ok m ∧
      m.norm =
        (if npStd (flatY [((0 : ℕ), StateData.mk [0, 1] [3, 3] [1, 1])]) ≠ 0
         then npStd (flatY [((0 : ℕ), StateData.mk [0, 1] [3, 3] [1, 1])])
         else if (flatY [((0 : ℕ), StateData.mk [0, 1] [3, 3] [1, 1])]).headD 0 ≠ 0
           then (flatY [((0 : ℕ), StateData.mk [0, 1] [3, 3] [1, 1])]).headD 0
           else 1) :=
  from_state_data_norm_fallback _ (by decide) (by simp [flatY])

/-- C5 — Empty-input failure: with distinct state keys,
`from_state_data` fails with the empty-data error exactly when the
combined length of all states' value sequences is zero, and returns a
constructed instance on every non-empty input. -/
theorem from_state_data_empty_iff {K : Type} [DecidableEq K]
    (items : List (K × StateData)) (hnd : (items.map Prod.fst).Nodup) :
    (MultiStateData.from_state_data items = Except.error DataError.emptyData
      ↔ (items.map (fun p => p.2.y.length)).sum = 0)
    ∧ ((items.map (fun p => p.2.y.length)).sum ≠ 0 →
        ∃ m : MultiStateData K, MultiStateData.from_state_data items = Except.ok m) := by
  have hne_of : (items.map (fun p => p.2.y.length)).sum ≠ 0 → flatY items ≠ [] := by
    intro hsum hc
    exact hsum (by rw [← flatY_map_length, hc]; rfl)
  constructor
  · constructor
    · intro herr
      by_contra hsum
      rw [from_state_data_eq_ok hnd (hne_of hsum)] at herr
      cases herr
    · intro hsum
      have hfl : (flatY items).length = 0 := by
        rw [flatY_map_length]
        exact hsum
      rw [MultiStateData.from_state_data, ofList_eq_self hnd]
      cases items with
      | nil => rfl
      | cons p ps =>
        have hxe : (((p :: ps).map (fun q => q.2.x))).isEmpty = false := rfl
        rw [x_2d_from_1d, hxe]
        simp only [Bool.false_eq_true, if_false]
        rw [if_pos hfl]
  · intro hsum
    exact ⟨_, from_state_data_eq_ok hnd (hne_of hsum)⟩

/-- C5 witness: one state holding a single observation. -/
theorem from_state_data_empty_iff_witness :
    (MultiStateData.from_state_data [((0 : ℕ), StateData.mk [1] [2] [3])]
        = Except.error DataError.emptyData
      ↔ ([((0 : ℕ), StateData.mk [1] [2] [3])].map (fun p => p.2.y.length)).sum = 0)
    ∧ (([((0 : ℕ), StateData.mk [1] [2] [3])].map (fun p => p.2.y.length)).sum ≠ 0 →
        ∃ m : MultiStateData ℕ,
          MultiStateData.from_state_data [((0 : ℕ), StateData.mk [1] [2] [3])]
            = Except.ok m) :=
  from_state_data_empty_iff _ (by decide)

/-- C7 — Positional matching: with a supplied key sequence (distinct
keys), the state stored for the k-th key is built from exactly the rows
of the feature matrix whose index column equals the position `k` — and
the data selected for position `k` does not depend on the key values at
all (any equally long key sequence selects the same slice), so rows are
never selected by comparing the key's literal value with the index
column. -/
theorem from_scikit_positional {K : Type} [DecidableEq K] (data : ScikitLearnData)
    (keys : List K) (hnd : keys.Nodup) (k : ℕ) (hk : k < keys.length) :
    (MultiStateData.from_scikit_learn_data data keys).odict.get? k
      = some (keys.get ⟨k, hk⟩,
          StateData.mk
            ((data.x.filter (fun r => decide (r.1 = ((k : ℕ) : ℝ)))).map Prod.snd)
            ((((data.x.zip data.y).filter
                (fun p => decide (p.1.1 = ((k : ℕ) : ℝ)))).map Prod.snd).map
              (fun v => v * data.norm))
            ((((data.x.zip data.err).filter
                (fun p => decide (p.1.1 = ((k : ℕ) : ℝ)))).map Prod.snd).map
              (fun v => v * data.norm)))
    ∧ ∀ (keys₂ : List K), keys₂.Nodup → keys₂.length = keys.length →
        ((MultiStateData.from_scikit_learn_data data keys₂).odict.get? k).map Prod.snd
          = ((MultiStateData.from_scikit_learn_data data keys).odict.get? k).map
              Prod.snd := by
  constructor
  · rw [from_scikit_get? data hnd k hk]
    rfl
  · intro keys₂ hnd₂ hlen₂
    rw [from_scikit_get? data hnd k hk,
      from_scikit_get? data hnd₂ k (by rw [hlen₂]; exact hk)]
    rfl

/-- C7 witness: feature matrix `[[0,1],[1,3]]` with keys `[7, 9]` — the
state for key `7` is the row with index value `0` (position), not the
(absent) rows with index value `7`. -/
theorem from_scikit_positional_witness :
    (MultiStateData.from_scikit_learn_data
        (ScikitLearnData.mk [((0 : ℝ), 1), ((1 : ℝ), 3)] [10, 30] [1, 2] 2)
        [(7 : ℕ), 9]).odict.get? 0
      = some (([(7 : ℕ), 9]).get ⟨0, by decide⟩,
          StateData.mk
            (((ScikitLearnData.mk [((0 : ℝ), 1), ((1 : ℝ), 3)] [10, 30] [1, 2] 2).x.filter
                (fun r => decide (r.1 = ((0 : ℕ) : ℝ)))).map Prod.snd)
            (((((ScikitLearnData.mk [((0 : ℝ), 1), ((1 : ℝ), 3)] [10, 30] [1, 2] 2).x.zip
                  (ScikitLearnData.mk [((0 : ℝ), 1), ((1 : ℝ), 3)] [10, 30] [1, 2] 2).y).filter
                (fun p => decide (p.1.1 = ((0 : ℕ) : ℝ)))).map Prod.snd).map
              (fun v => v * (ScikitLearnData.mk
                [((0 : ℝ), 1), ((1 : ℝ), 3)] [10, 30] [1, 2] 2).norm))
            (((((ScikitLearnData.mk [((0 : ℝ), 1), ((1 : ℝ), 3)] [10, 30] [1, 2] 2).x.zip
                  (ScikitLearnData.mk [((0 : ℝ), 1), ((1 : ℝ), 3)] [10, 30] [1, 2] 2).err).filter
                (fun p => decide (p.1.1 = ((0 : ℕ) : ℝ)))).map Prod.snd).map
              (fun v => v * (ScikitLearnData.mk
                [((0 : ℝ), 1), ((1 : ℝ), 3)] [10, 30] [1, 2] 2).norm)))
    ∧ ∀ (keys₂ : List ℕ), keys₂.Nodup → keys₂.length = ([(7 : ℕ), 9]).length →
        ((MultiStateData.from_scikit_learn_data
            (ScikitLearnData.mk [((0 : ℝ), 1), ((1 : ℝ), 3)] [10, 30] [1, 2] 2)
            keys₂).odict.get? 0).map Prod.snd
          = ((MultiStateData.from_scikit_learn_data
              (ScikitLearnData.mk [((0 : ℝ), 1), ((1 : ℝ), 3)] [10, 30] [1, 2] 2)
              [(7 : ℕ), 9]).odict.get? 0).map Prod.snd :=
  from_scikit_positional _ _ (by decide) 0 (by decide)

/-- C8 — Default keys derivation: when `keys` is omitted, the key
sequence used is exactly the distinct values of the feature matrix's
index column in strictly ascending order (strict sortedness pins down
both sortedness and distinctness, and the membership equivalence pins
down the value set). -/
theorem from_scikit_default_keys (data : ScikitLearnData) :
    (MultiStateData.from_scikit_learn_data_default data).keys.Sorted (fun a b => a < b)
    ∧ ∀ v : ℝ, (v ∈ (MultiStateData.from_scikit_learn_data_default data).keys
        ↔ v ∈ data.x.map Prod.fst) := by
  have hkeys : (MultiStateData.from_scikit_learn_data_default data).keys
      = npUnique (data.x.map Prod.fst) := by
    rw [MultiStateData.from_scikit_learn_data_default]
    exact from_scikit_keys _ (npUnique_nodup _)
  rw [hkeys]
  exact ⟨npUnique_sorted _, fun v => npUnique_mem _ v⟩

/-- C9 (amended) — Sample shape for at least one state: `sample(coords)`
returns a matrix of shape `(numStates * len(coords), 2)` whose index
column is each state index `0 .. numStates-1` repeated `len(coords)`
times in key order, and whose coordinate column repeats `coords` once
per state.  (The zero-state case is the amendment: there `np.block([])`
raises, see the counterexample.) -/
theorem sample_shape {K : Type} (m : MultiStateData K) (coords : List ℝ)
    (h : m.keys.length ≠ 0) :
    (m.sample coords).map List.length = some (m.keys.length * coords.length)
    ∧ (m.sample coords).map (List.map Prod.fst)
        = some (((List.range m.keys.length).map
            (fun i => List.replicate coords.length ((i : ℕ) : ℝ))).flatten)
    ∧ (m.sample coords).map (List.map Prod.snd)
        = some ((List.replicate m.keys.length coords).flatten) := by
  have hrep : (List.replicate m.keys.length coords).isEmpty = false := by
    cases hn : m.keys.length with
    | zero => exact absurd hn h
    | succ n => rfl
  rw [MultiStateData.sample, x_2d_from_1d, hrep]
  simp only [Bool.false_eq_true, if_false, Option.map_some']
  refine ⟨?_, ?_, ?_⟩
  · rw [length_blockRows, List.map_replicate, List.sum_replicate, smul_eq_mul]
  · rw [List.range_eq_range', blockRows_replicate_fst]
  · rw [map_snd_blockRows]

/-- C9 witness: one state, one coordinate. -/
theorem sample_shape_witness :
    ((MultiStateData.mk [((0 : ℕ), StateData.mk [] [] [])]
        (ScikitLearnData.mk [] [] [] 1)).sample [5]).map List.length
      = some ((MultiStateData.mk [((0 : ℕ), StateData.mk [] [] [])]
          (ScikitLearnData.mk [] [] [] 1)).keys.length * ([(5 : ℝ)]).length)
    ∧ ((MultiStateData.mk [((0 : ℕ), StateData.mk [] [] [])]
        (ScikitLearnData.mk [] [] [] 1)).sample [5]).map (List.map Prod.fst)
      = some (((List.range (MultiStateData.mk [((0 : ℕ), StateData.mk [] [] [])]
            (ScikitLearnData.mk [] [] [] 1)).keys.length).map
          (fun i => List.replicate ([(5 : ℝ)]).length ((i : ℕ) : ℝ))).flatten)
    ∧ ((MultiStateData.mk [((0 : ℕ), StateData.mk [] [] [])]
        (ScikitLearnData.mk [] [] [] 1)).sample [5]).map (List.map Prod.snd)
      = some ((List.replicate (MultiStateData.mk [((0 : ℕ), StateData.mk [] [] [])]
          (ScikitLearnData.mk [] [] [] 1)).keys.length [(5 : ℝ)]).flatten) :=
  sample_shape _ [5] (by decide)

/-- C9 counterexample — the claim as stated fails for a successfully
constructed zero-state instance (`from_scikit_learn_data` with
`keys = []`): `sample` hits `np.block([])`, which raises `ValueError`
(modelled as `none`), instead of returning a `(0, 2)`-shaped matrix. -/
theorem sample_zero_states_fails :
    (MultiStateData.from_scikit_learn_data (ScikitLearnData.mk [] [] [] 1)
        ([] : List ℕ)).sample [0] = none := rfl

/-- C10 (amended) — Lookup failures: `idx` yields the KeyError exactly on
unregistered keys; the map lookup yields the KeyError exactly on absent
keys; and `key(i)` yields the IndexError exactly when
`i < -numStates ∨ numStates ≤ i` — Python tuple indexing, so negative
indices down to `-numStates` wrap around and succeed rather than fail
(that is the amendment; the claim expects failure on all of
`i ∉ [0, numStates)`). -/
theorem lookup_failure_modes {K V : Type} [DecidableEq K] :
    (∀ (m : MultiStateData K) (k : K), m.idx k = none ↔ k ∉ m.keys)
    ∧ (∀ (m : MultiStateData K) (i : ℤ),
        m.key i = none ↔ i < -(m.keys.length : ℤ) ∨ (m.keys.length : ℤ) ≤ i)
    ∧ (∀ (d : List (K × V)) (k : K),
        FrozenOrderedDict.getItem d k = none ↔ k ∉ d.map Prod.fst) := by
  refine ⟨?_, ?_, ?_⟩
  · intro m k
    rw [MultiStateData.idx, foldl_idx_eq_none]
    have hmem : k ∈ m.keys ↔ ∃ p, p ∈ m.keys.enum ∧ p.2 = k := by
      conv_lhs => rw [← List.enum_map_snd m.keys]
      exact List.mem_map
    rw [hmem]
    constructor
    · rintro ⟨-, hall⟩ ⟨p, hp, hpk⟩
      exact hall p hp hpk
    · intro hnot
      exact ⟨rfl, fun p hp hpk => hnot ⟨p, hp, hpk⟩⟩
  · intro m i
    exact pyTupleGet_eq_none_iff m.keys i
  · intro d k
    exact getItem_eq_none_iff d k

/-- C10 counterexample — on a two-state instance, `key(-1)` is outside
`[0, numStates)` yet succeeds, returning the last key by Python's
negative indexing instead of signalling KeyNotFound. -/
theorem key_negative_index_succeeds :
    (MultiStateData.from_scikit_learn_data (ScikitLearnData.mk [] [] [] 1)
        [(5 : ℕ), 7]).key (-1) = some 7 := rfl

end MSKernel
